import Mathlib

/-!
Verification development for the serverless-athena deployment reconciliation
engine (`src/index.js`).  The JavaScript source is shallowly embedded:

* pure string building is embedded as Lean `String` functions;
* `Buffer.byteLength(s, 'utf8')` is embedded as `String.utf8ByteSize`;
* the stateful loops (`restorePartitions`'s while/for batching loop, the
  pagination loops, the query poll loop) are embedded as fuel-indexed
  recursive functions that also record the statements / events they emit;
* remote calls are embedded against explicit environment records whose fields
  model the collaborator interface (`provider.request`) responses.

Each definition carries a comment pointing at the source lines it embeds.
-/

namespace SlsAthena

/-- Association-list lookup modelling a JavaScript property read
`obj[key]` on a plain object represented as key/value pairs
(`undefined` becomes `none`). -/
def lookupParam (ps : List (String × String)) (k : String) : Option String :=
  (ps.find? (fun kv => kv.1 == k)).map (fun kv => kv.2)

/-! ## Byte-length arithmetic for `String.utf8ByteSize` -/

theorem utf8Go_append (a b : List Char) :
    String.utf8ByteSize.go (a ++ b) =
      String.utf8ByteSize.go a + String.utf8ByteSize.go b := by
  induction a with
  | nil => simp [String.utf8ByteSize.go]
  | cons c cs ih =>
      simp [String.utf8ByteSize.go, ih]
      omega

theorem utf8Len_append (a b : String) :
    (a ++ b).utf8ByteSize = a.utf8ByteSize + b.utf8ByteSize := by
  cases a with
  | mk da =>
      cases b with
      | mk db =>
          show String.utf8ByteSize ⟨da ++ db⟩ = _
          simp [String.utf8ByteSize, utf8Go_append]

theorem utf8Go_replicate (n : Nat) (c : Char) :
    String.utf8ByteSize.go (List.replicate n c) = n * c.utf8Size := by
  induction n with
  | zero => simp [String.utf8ByteSize.go]
  | succ m ih =>
      simp only [List.replicate, String.utf8ByteSize.go, ih]
      ring

theorem utf8Len_mk_replicate (n : Nat) (c : Char) :
    (String.mk (List.replicate n c)).utf8ByteSize = n * c.utf8Size := by
  show String.utf8ByteSize.go _ = _
  exact utf8Go_replicate n c

/-! ## Partition snapshots and the restore batching loop

Source: `src/index.js`, `backupPartitions` (lines 389-417) produces entries
`{values: [{name, value}...], location}`; `restorePartitions`
(lines 419-450) replays them as batched `ALTER TABLE ... ADD IF NOT EXISTS`
statements. -/

/-- One partition snapshot entry, as produced by `backupPartitions`
(src/index.js lines 405-411): named key/value pairs plus a storage
location. -/
structure PartEntry where
  values : List (String × String)
  location : String
  deriving DecidableEq

/-- The clause built for one partition (src/index.js lines 436-440):
`` `name` = 'value' `` columns joined by `,` (JavaScript array-to-string
interpolation joins with a comma), wrapped as
`PARTITION (...) LOCATION '...'`. -/
def partClause (p : PartEntry) : String :=
  let cols := p.values.map (fun nv => "`" ++ nv.1 ++ "` = '" ++ nv.2 ++ "'")
  "PARTITION (" ++ String.intercalate "," cols ++ ") LOCATION '" ++ p.location ++ "'"

/-- The fixed head of every batched statement
(src/index.js line 430): `ALTER TABLE ${table} ADD IF NOT EXISTS `. -/
def addStmtHead (table : String) : String :=
  "ALTER TABLE " ++ table ++ " ADD IF NOT EXISTS "

/-- Hard wire-protocol ceiling on a statement's UTF-8 byte length
(src/index.js line 427). -/
def querySizeLimit : Nat := 262144

/-- The inner `for (; i < partitions.length; i++)` loop of
`restorePartitions` (src/index.js lines 431-446).  Starting from absolute
index `i` with the current `query`, it appends clauses while they fit; on
overflow it performs the source's `i--; break`, returning the (possibly
negative) new value of `i` together with the statement to execute.
`rem` is the structural bound `partitions.length - i`. -/
def forAppend (ps : List PartEntry) (query : String) (i : Nat) (rem : Nat) :
    Int × String :=
  match rem with
  | 0 => ((i : Int), query)
  | rem' + 1 =>
    match ps.get? i with
    | none => ((i : Int), query)
    | some p =>
      let s := partClause p
      if (query ++ s).utf8ByteSize > querySizeLimit then
        ((i : Int) - 1, query)
      else
        forAppend ps (query ++ s) (i + 1) rem'

/-- Outcome of a fuel-indexed run of the batching while-loop. -/
inductive RunOutcome where
  | completed
  | crashed
  | outOfFuel
  deriving DecidableEq

/-- The outer `while (i < partitions.length)` loop of `restorePartitions`
(src/index.js lines 429-448), fuel-indexed.  Each iteration rebuilds the
statement head, runs the inner for loop, and executes the resulting
statement.  If the loop is entered with a negative `i` (possible after the
source's `i--`), the body's `partitions[i]` access destructures
`undefined` and throws a TypeError, modelled as `.crashed`.  The returned
list collects every statement passed to the executor, in order. -/
def restoreLoopGo (table : String) (ps : List PartEntry) :
    Nat → Int → List String × RunOutcome
  | 0, _ => ([], .outOfFuel)
  | fuel + 1, i =>
    if i < (ps.length : Int) then
      if i < 0 then ([], .crashed)
      else
        let i0 := i.toNat
        let r := forAppend ps (addStmtHead table) i0 (ps.length - i0)
        let rest := restoreLoopGo table ps fuel r.1
        (r.2 :: rest.1, rest.2)
    else ([], .completed)

/-- The function `restorePartitions` (src/index.js lines 419-450): returns immediately
when the snapshot list is empty (line 421), otherwise runs the batching
loop from `i = 0`.  The result is the sequence of SQL statements passed to
the executor together with the loop outcome. -/
def restorePartitions (table : String) (ps : List PartEntry) (fuel : Nat) :
    List String × RunOutcome :=
  if ps.length = 0 then ([], .completed)
  else restoreLoopGo table ps fuel 0

/-! ## Remote tables, change detection (src/index.js lines 337-354, 372-377) -/

/-- Remote table state.  `Name`, `PartitionKeys` (the key column names) and
`Parameters` mirror the `TableMetadata` shape the catalog service returns;
`Parameters` is `none` when the service response carries no parameter map
(a JavaScript `undefined`).  `liveDdl` models the definition the table is
currently running (what `SHOW CREATE TABLE` prints), and `partitions` its
partition entries; both are the catalog-state component of the model. -/
structure RemoteTable where
  Name : String
  PartitionKeys : List String
  Parameters : Option (List (String × String))
  liveDdl : String
  partitions : List PartEntry
  deriving DecidableEq

/-- Key under which the content fingerprint is stamped (src/index.js
lines 376, 482). -/
def hashKey : String := "sls.athena.hash"

/-- Key under which the deployment stack identity is stamped (src/index.js
lines 208, 483, 549, 565). -/
def stackKey : String := "sls.athena.stack"

/-- A declared table after config resolution (src/index.js lines 216-239). -/
structure TableConfig where
  catalog : String
  database : String
  fullname : String
  name : String
  ddl : String
  keepPartitions : Bool
  workgroup : String
  deriving DecidableEq

/-- The function `tableUpdated` (src/index.js lines 372-377), parameterized by the
content-hash function (`hash`, lines 8-10, is an MD5 hex digest — modelled
abstractly).  `if (!table) return true`; otherwise the code reads
`table.Parameters['sls.athena.hash']` — a TypeError if the metadata has no
`Parameters` object — and compares with strict inequality (a present hash
string is `!==` to a missing, `undefined`, stored value). -/
def tableUpdated (hash : String → String) (config : TableConfig)
    (table : Option RemoteTable) : Except String Bool :=
  match table with
  | none => .ok true
  | some t =>
    match t.Parameters with
    | none => .error "TypeError: Cannot read properties of undefined"
    | some ps => .ok (some (hash config.ddl) != lookupParam ps hashKey)

/-! ## Partition backup (src/index.js lines 337-354 and 389-417) -/

/-- Result of the raw `getTableMetadata` call inside `getTable`
(src/index.js lines 337-354): success, a provider error whose message
matches `/Error Code: EntityNotFoundException/`, or any other error. -/
inductive GetTableOutcome where
  | found (t : RemoteTable)
  | notFound
  | failure (msg : String)
  deriving DecidableEq

/-- One raw partition from `Glue getPartitions` (src/index.js
lines 399-411): positional `Values` plus `StorageDescriptor.Location`. -/
structure RawPartition where
  Values : List String
  Location : String
  deriving DecidableEq

/-- One page of the `getPartitions` pagination (src/index.js
lines 399-412). -/
structure PartitionsPage where
  Partitions : List RawPartition
  NextToken : Option String
  deriving DecidableEq

/-- Environment for `backupPartitions`: the `getTableMetadata` outcome per
(catalog, database, table) triple and the `getPartitions` pages per
(database, table, token). -/
structure BackupEnv where
  getTableMeta : String → String → String → GetTableOutcome
  partitionsPage : String → String → Option String → PartitionsPage

/-- The method `getTable` (src/index.js lines 337-354): a provider error matching
`EntityNotFoundException` is converted to `null` (`none`); other errors
are rethrown. -/
def getTable (env : BackupEnv) (catalog database table : String) :
    Except String (Option RemoteTable) :=
  match env.getTableMeta catalog database table with
  | .found t => .ok (some t)
  | .notFound => .ok none
  | .failure msg => .error msg

/-- The zipping of one raw partition with the key-column names
(src/index.js lines 405-411): `cols.map((c, i) => ({name: c, value:
p.Values[i]}))`.  An out-of-range index read yields `undefined`, which the
later string interpolation of `restorePartitions` renders as
`"undefined"`. -/
def zipPartition (cols : List String) (p : RawPartition) : PartEntry :=
  { values := cols.enum.map (fun ic => (ic.2, p.Values.getD ic.1 "undefined"))
    location := p.Location }

/-- The `do { ... } while (nextToken)` pagination of `backupPartitions`
(src/index.js lines 397-413), fuel-indexed; the Bool is false when fuel
ran out before the service stopped returning continuation tokens. -/
def backupLoop (env : BackupEnv) (database table : String)
    (cols : List String) : Nat → Option String → List PartEntry →
    List PartEntry × Bool
  | 0, _, acc => (acc, false)
  | fuel + 1, token, acc =>
    let page := env.partitionsPage database table token
    let acc := acc ++ page.Partitions.map (zipPartition cols)
    match page.NextToken with
    | some t => backupLoop env database table cols fuel (some t) acc
    | none => (acc, true)

/-- The method `backupPartitions` (src/index.js lines 389-417).  After `getTable`,
the source reads `table.PartitionKeys` without a null check (line 394): on
a not-found table (`getTable` returned `null`) JavaScript throws a
TypeError, modelled as an error result. -/
def backupPartitions (env : BackupEnv) (catalog database tableName : String)
    (fuel : Nat) : Except String (List PartEntry) :=
  match getTable env catalog database tableName with
  | .error e => .error e
  | .ok none =>
      .error "TypeError: Cannot read properties of null (reading PartitionKeys)"
  | .ok (some t) =>
      let cols := t.PartitionKeys
      match backupLoop env database tableName cols fuel none [] with
      | (acc, true) => .ok acc
      | (_, false) => .error "model: pagination fuel exhausted"

/-! ## Orphan sweeping (src/index.js lines 249-274, 538-572) -/

/-- Remote database entry from `listDatabases` (`DatabaseList` items);
`Parameters` is `none` when the entry carries no parameter map. -/
structure GlueDatabase where
  Name : String
  Parameters : Option (List (String × String))
  deriving DecidableEq

/-- A declared database, reduced to the field the sweep reads
(src/index.js line 546 uses `usedDatabases.map(d => d.name)`). -/
structure DbConfig where
  name : String
  deriving DecidableEq

/-- The filter of `removeTrailingTables` (src/index.js lines 562-566):
`t.Parameters && t.Parameters['sls.athena.stack'] === stack &&
!usedSet.has(t.Name)`.  An absent parameter map is falsy, and a missing
stack tag (`undefined`) is never `===` to the stack-name string. -/
def trailingTables (stack : String) (tables : List RemoteTable)
    (usedTables : List TableConfig) : List RemoteTable :=
  let usedSet := usedTables.map (fun t => t.name)
  tables.filter (fun t =>
    match t.Parameters with
    | none => false
    | some ps => lookupParam ps stackKey == some stack && !(usedSet.contains t.Name))

/-- The method `removeTrailingTables` (src/index.js lines 558-572): the names dropped
(`DROP TABLE IF EXISTS`), in order, are exactly those of the trailing
tables. -/
def removeTrailingTables (stack : String) (tables : List RemoteTable)
    (usedTables : List TableConfig) : List String :=
  (trailingTables stack tables usedTables).map (fun t => t.Name)

/-- The filter of `removeTrailingDatabases` (src/index.js lines 547-550),
identical in shape to the table filter. -/
def trailingDatabases (stack : String) (usedNames : List String)
    (dbs : List GlueDatabase) : List GlueDatabase :=
  dbs.filter (fun d =>
    match d.Parameters with
    | none => false
    | some ps => lookupParam ps stackKey == some stack && !(usedNames.contains d.Name))

/-- One catalog summary from `listDataCatalogs`
(`DataCatalogsSummary` items). -/
structure CatalogSummary where
  CatalogName : String
  deriving DecidableEq

/-- One page of the catalog listing.  The service sets `NextToken` (the
field the AWS API defines); there is no lowercase `nextToken` property. -/
structure CatalogsPage where
  DataCatalogsSummary : List CatalogSummary
  NextToken : Option String

/-- One page of the database listing for a catalog. -/
structure DatabasesPage where
  DatabaseList : List GlueDatabase
  NextToken : Option String

/-- Environment for the orphan sweep: the stack name
(`provider.naming.getStackName()`), and the paged listing responses. -/
structure SweepEnv where
  stackName : String
  catalogsPage : Option String → CatalogsPage
  databasesPage : String → Option String → DatabasesPage

/-- The `do/while` of `listDataCatalogs` (src/index.js lines 249-260).
Line 257 is `nextToken = res.nextToken`: the response object only carries
`NextToken`, so this property read yields `undefined` (`none`) on every
iteration and the loop never requests a second page. -/
def listDataCatalogsGo (env : SweepEnv) : Nat → Option String →
    List CatalogSummary → List CatalogSummary
  | 0, _, acc => acc
  | fuel + 1, token, acc =>
    let res := env.catalogsPage token
    let acc := acc ++ res.DataCatalogsSummary
    let nextToken : Option String := none
    match nextToken with
    | some t => listDataCatalogsGo env fuel (some t) acc
    | none => acc

/-- The method `listDataCatalogs` (src/index.js lines 249-260). -/
def listDataCatalogs (env : SweepEnv) (fuel : Nat) : List CatalogSummary :=
  listDataCatalogsGo env fuel none []

/-- The `do/while` of `listDatabases` (src/index.js lines 262-274), which
reads the correct `res.NextToken` field. -/
def listDatabasesGo (env : SweepEnv) (catalog : String) : Nat →
    Option String → List GlueDatabase → List GlueDatabase
  | 0, _, acc => acc
  | fuel + 1, token, acc =>
    let res := env.databasesPage catalog token
    let acc := acc ++ res.DatabaseList
    match res.NextToken with
    | some t => listDatabasesGo env catalog fuel (some t) acc
    | none => acc

/-- The method `listDatabases` (src/index.js lines 262-274). -/
def listDatabases (env : SweepEnv) (catalog : String) (fuel : Nat) :
    List GlueDatabase :=
  listDatabasesGo env catalog fuel none []

/-- The method `removeTrailingDatabases` (src/index.js lines 538-556): for each
catalog returned by `listDataCatalogs`, list its databases, filter the
trailing ones and delete each; the result is the list of deleted database
names, in order. -/
def removeTrailingDatabases (env : SweepEnv) (usedDatabases : List DbConfig)
    (fuel : Nat) : List String :=
  let catalogs := listDataCatalogs env fuel
  catalogs.flatMap (fun c =>
    let databases := listDatabases env c.CatalogName fuel
    (trailingDatabases env.stackName (usedDatabases.map (fun d => d.name))
        databases).map (fun d => d.Name))

/-! ## The query executor's poll loop (src/index.js lines 37-68) -/

/-- Remote query-execution states (src/index.js lines 44-65). -/
inductive QState where
  | queued
  | running
  | succeeded
  | failed
  | cancelled
  | other
  deriving DecidableEq

/-- Observable events of the poll loop: a `getQueryExecution` status poll,
or a `setTimeout` sleep of the given duration. -/
inductive PollEvent where
  | sleep (ms : Nat)
  | poll
  deriving DecidableEq

/-- The `wait` closure of `getExecutor` (src/index.js lines 37-68),
fuel-indexed.  `status j` is the state reported by the `j`-th poll.  Per
the source, each call first updates `waitTime = Math.min(1000, waitTime +
100)`, then immediately polls; only on QUEUED/RUNNING does it sleep
`waitTime` (the `setTimeout`) before the recursive call.  Returns the
event trace and whether the query reached SUCCEEDED (false also when fuel
ran out). -/
def waitGo (status : Nat → QState) : Nat → Nat → Nat → List PollEvent × Bool
  | 0, _, _ => ([], false)
  | fuel + 1, w, j =>
    let w' := min 1000 (w + 100)
    match status j with
    | .queued =>
        let r := waitGo status fuel w' (j + 1)
        (.poll :: .sleep w' :: r.1, r.2)
    | .running =>
        let r := waitGo status fuel w' (j + 1)
        (.poll :: .sleep w' :: r.1, r.2)
    | .succeeded => ([.poll], true)
    | .failed => ([.poll], false)
    | .cancelled => ([.poll], false)
    | .other => ([.poll], false)

/-- The event trace of one executor call's poll loop, starting from the
initial `waitTime = 0` (src/index.js line 37). -/
def execTrace (status : Nat → QState) (fuel : Nat) : List PollEvent :=
  (waitGo status fuel 0 0).1

/-- The sleep durations of a trace, in order. -/
def sleepsOf (evs : List PollEvent) : List Nat :=
  evs.filterMap (fun e =>
    match e with
    | .sleep d => some d
    | .poll => none)

/-! ## `deployTable` (src/index.js lines 452-493) as a state machine

The remote catalog is abstracted to the slot of the one table `deployTable`
works on (`Option RemoteTable`).  Executor-backed helpers receive their
query-service semantics:

* `removeTable` (line 357) runs `DROP TABLE IF EXISTS` — always succeeds,
  leaving the slot empty;
* `createTable` (line 362) runs the given DDL — the environment oracle
  `createOk` decides whether the query succeeds; on success the slot holds
  a fresh table whose live definition is that DDL and whose partition keys
  are those the DDL declares (oracle `ddlPartitionKeys`, DDL text being
  opaque);
* `getTableDDL` (line 367) runs `SHOW CREATE TABLE` — returns the live
  definition, failing when the table is absent;
* `setTableParameters` (line 379) runs `ALTER TABLE ... SET TBLPROPERTIES`
  — sets the listed properties, failing when the table is absent;
* `backupPartitions` / `restorePartitions` read and add the slot's
  partition entries (their own pagination/batching loops are embedded
  separately above; at this level each is one recorded operation).
-/

/-- Environment for `deployTable`: the content-hash function (lines 8-10),
the stack name, and the create-query and DDL-shape oracles. -/
structure DeployEnv where
  hash : String → String
  stackName : String
  createOk : String → Bool
  ddlPartitionKeys : String → List String

/-- Operations `deployTable` issues, in order.  A `createTable` is recorded
when the CREATE query is submitted, whether or not it succeeds. -/
inductive Op where
  | backupParts (name : String)
  | writeFile (name : String)
  | showCreate (name : String)
  | dropTable (name : String)
  | createTable (name ddl : String)
  | setParams (name : String) (params : List (String × String))
  | refetchTable (name : String)
  | restoreParts (name : String) (count : Nat)
  deriving DecidableEq

/-- Result of a `deployTable` run: the operations issued, the final catalog
slot, and the exception propagated out of `deployTable`, if any. -/
structure DeployResult where
  ops : List Op
  state : Option RemoteTable
  err : Option String
  deriving DecidableEq

/-- The table a successful `CREATE TABLE` leaves in the catalog. -/
def newTableFromDdl (env : DeployEnv) (name ddl : String) : RemoteTable :=
  { Name := name
    PartitionKeys := env.ddlPartitionKeys ddl
    Parameters := some []
    liveDdl := ddl
    partitions := [] }

/-- The semantics of `ALTER TABLE ... SET TBLPROPERTIES`: the listed properties
are set, overriding existing values of the same keys and keeping the
rest. -/
def setProps (old ps : List (String × String)) : List (String × String) :=
  old.filter (fun kv => (lookupParam ps kv.1).isNone) ++ ps

/-- JavaScript truthiness of `backupedDDL` (src/index.js line 474):
`undefined` and the empty string are falsy. -/
def jsTruthy : Option String → Bool
  | none => false
  | some s => !(s == "")

/-- The provenance parameters stamped at src/index.js lines 481-484. -/
def stampParams (env : DeployEnv) (cfg : TableConfig) :
    List (String × String) :=
  [(hashKey, env.hash cfg.ddl), (stackKey, env.stackName)]

/-- The table as left by a successful restore step: the snapshot entries
not already present are added (`ADD IF NOT EXISTS`). -/
def restoredTable (nt : RemoteTable) (ps : List PartEntry) : RemoteTable :=
  { nt with partitions := nt.partitions ++ ps.filter (fun p => !(nt.partitions.contains p)) }

/-- Lines 486-491 of `deployTable`: re-fetch the table (a `null` result
would make line 487's `newTable.PartitionKeys` read throw), and restore
the backed-up partitions when the new table is partitioned and a non-empty
snapshot exists (`newTablePartionned && partitions && partitions.length`,
where an uncaptured snapshot is `undefined`, hence falsy). -/
def restorePhase (cfg : TableConfig) (ops : List Op) :
    Option RemoteTable → Option (List PartEntry) → DeployResult
  | none, _ =>
      { ops := ops ++ [.refetchTable cfg.name], state := none
        err := some "TypeError: Cannot read properties of null (reading PartitionKeys)" }
  | some nt, none =>
      { ops := ops ++ [.refetchTable cfg.name], state := some nt, err := none }
  | some nt, some ps =>
      if decide (nt.PartitionKeys.length > 0) && decide (ps.length > 0) then
        { ops := ops ++ [.refetchTable cfg.name, .restoreParts cfg.name ps.length]
          state := some (restoredTable nt ps)
          err := none }
      else { ops := ops ++ [.refetchTable cfg.name], state := some nt, err := none }

/-- The table as left by the stamping step: the fingerprint of the declared
DDL and the stack identity are set in its properties. -/
def stampedTableOf (env : DeployEnv) (cfg : TableConfig) (t : RemoteTable) :
    RemoteTable :=
  { t with Parameters := some (setProps (t.Parameters.getD []) (stampParams env cfg)) }

/-- Lines 481-484 of `deployTable`: unconditionally stamp the fingerprint
of the declared DDL and the stack identity; the `ALTER TABLE` fails when
the table is absent. -/
def stampPhase (env : DeployEnv) (cfg : TableConfig) (ops : List Op)
    (st : Option RemoteTable) (partitions : Option (List PartEntry)) :
    DeployResult :=
  match st with
  | none =>
      { ops := ops ++ [.setParams cfg.name (stampParams env cfg)], state := none
        err := some "Query failed: ALTER TABLE on missing table" }
  | some t =>
      restorePhase cfg (ops ++ [.setParams cfg.name (stampParams env cfg)])
        (some (stampedTableOf env cfg t)) partitions

/-- Lines 470-480 of `deployTable`: `if (!table || needRemove)` attempt the
create; on failure the exception is caught, and if a truthy `backupedDDL`
was captured the previous definition is re-created (an exception from that
restore create propagates). -/
def createPhase (env : DeployEnv) (cfg : TableConfig)
    (table : Option RemoteTable) (needRemove : Bool)
    (backupedDDL : Option String) (ops : List Op) (st : Option RemoteTable)
    (partitions : Option (List PartEntry)) : DeployResult :=
  if table.isNone || needRemove then
    if env.createOk cfg.ddl then
      stampPhase env cfg (ops ++ [.createTable cfg.name cfg.ddl])
        (some (newTableFromDdl env cfg.name cfg.ddl)) partitions
    else
      if jsTruthy backupedDDL then
        if env.createOk (backupedDDL.getD "") then
          stampPhase env cfg
            (ops ++ [.createTable cfg.name cfg.ddl,
              .createTable cfg.name (backupedDDL.getD "")])
            (some (newTableFromDdl env cfg.name (backupedDDL.getD ""))) partitions
        else
          { ops := ops ++ [.createTable cfg.name cfg.ddl,
              .createTable cfg.name (backupedDDL.getD "")]
            state := st
            err := some "Query failed: restore create failed" }
      else
        stampPhase env cfg (ops ++ [.createTable cfg.name cfg.ddl]) st partitions
  else stampPhase env cfg ops st partitions

/-- Lines 464-469 of `deployTable`: compute `needRemove` via `tableUpdated`
(which can itself throw), and when removal is needed first capture the live
definition (`SHOW CREATE TABLE`, which fails on an absent table), then
drop the table. -/
def removePhase (env : DeployEnv) (cfg : TableConfig)
    (table : Option RemoteTable) (ops : List Op) (st : Option RemoteTable)
    (partitions : Option (List PartEntry)) : DeployResult :=
  match tableUpdated env.hash cfg table with
  | .error e => { ops := ops, state := st, err := some e }
  | .ok needRemove =>
    if needRemove then
      match st with
      | some t =>
          createPhase env cfg table needRemove (some t.liveDdl)
            (ops ++ [.showCreate cfg.name, .dropTable cfg.name]) none partitions
      | none =>
          { ops := ops ++ [.showCreate cfg.name], state := st
            err := some "Query failed: SHOW CREATE TABLE on missing table" }
    else createPhase env cfg table needRemove none ops st partitions

/-- The method `deployTable` (src/index.js lines 452-493).  `table` is the
`listTables` entry handed over by `deployDatabase` (line 526) and `st` the
live slot when the call starts; at the call site the two coincide.  Lines
454-463: when the observed table is partitioned and `keepPartitions` is
set, back up its partitions (reading the live slot; `backupPartitions`
throws on an absent table) and write the snapshot side file. -/
def deployTable (env : DeployEnv) (cfg : TableConfig)
    (table : Option RemoteTable) (st : Option RemoteTable) : DeployResult :=
  let hasPartitions := match table with
    | some t => decide (t.PartitionKeys.length > 0)
    | none => false
  if hasPartitions && cfg.keepPartitions then
    match st with
    | none =>
        { ops := [.backupParts cfg.name], state := st
          err := some "TypeError: Cannot read properties of null (reading PartitionKeys)" }
    | some t0 =>
        removePhase env cfg table [.backupParts cfg.name, .writeFile cfg.name]
          st (some t0.partitions)
  else removePhase env cfg table [] st none

/-! ## Claim C2 — orphan-sweep safety -/

/-- Claim C2: the orphan sweep never deletes a resource that does not carry
this deployment's stack-identity tag: every table selected for dropping by
`removeTrailingTables` and every database selected for deletion by
`removeTrailingDatabases` has `sls.athena.stack` equal to the current
stack name in its parameters, regardless of the declared sets. -/
theorem c2_orphan_safety (stack : String) (tables : List RemoteTable)
    (usedTables : List TableConfig) (usedNames : List String)
    (databases : List GlueDatabase) :
    (∀ t ∈ trailingTables stack tables usedTables,
      ∃ ps, t.Parameters = some ps ∧ lookupParam ps stackKey = some stack) ∧
    (∀ d ∈ trailingDatabases stack usedNames databases,
      ∃ ps, d.Parameters = some ps ∧ lookupParam ps stackKey = some stack) := by
  constructor
  · intro t ht
    simp only [trailingTables, List.mem_filter] at ht
    obtain ⟨-, hcond⟩ := ht
    cases hps : t.Parameters with
    | none => rw [hps] at hcond; simp at hcond
    | some ps =>
        rw [hps] at hcond
        simp only [Bool.and_eq_true, beq_iff_eq] at hcond
        exact ⟨ps, rfl, hcond.1⟩
  · intro d hd
    simp only [trailingDatabases, List.mem_filter] at hd
    obtain ⟨-, hcond⟩ := hd
    cases hps : d.Parameters with
    | none => rw [hps] at hcond; simp at hcond
    | some ps =>
        rw [hps] at hcond
        simp only [Bool.and_eq_true, beq_iff_eq] at hcond
        exact ⟨ps, rfl, hcond.1⟩

/-- Concrete tagged orphan table used to exercise the sweep. -/
def taggedOrphanTable : RemoteTable :=
  { Name := "old_events"
    PartitionKeys := []
    Parameters := some [(stackKey, "stk")]
    liveDdl := "CREATE EXTERNAL TABLE old_events (x string)"
    partitions := [] }

/-- Witness for C2: a concrete trailing table of a concrete sweep carries
the stack tag. -/
theorem c2_orphan_safety_witness :
    taggedOrphanTable ∈ trailingTables "stk" [taggedOrphanTable] [] ∧
    ∃ ps, taggedOrphanTable.Parameters = some ps ∧
      lookupParam ps stackKey = some "stk" :=
  ⟨by decide, (c2_orphan_safety "stk" [taggedOrphanTable] [] [] []).1
    taggedOrphanTable (by decide)⟩

/-! ## Claim C5 — backup on a nonexistent table -/

/-- Environment in which the table lookup reports not-found
(`EntityNotFoundException`). -/
def notFoundEnv : BackupEnv :=
  { getTableMeta := fun _ _ _ => .notFound
    partitionsPage := fun _ _ _ => { Partitions := [], NextToken := none } }

/-- Claim C5 (code bug): on a table whose lookup reports not-found,
`backupPartitions` does not return an empty sequence — `getTable` returns
`null` and line 394's `table.PartitionKeys` read throws a TypeError. -/
theorem c5_backup_not_found_throws :
    backupPartitions notFoundEnv "AwsDataCatalog" "mydb" "missing" 3 =
      .error "TypeError: Cannot read properties of null (reading PartitionKeys)" ∧
    backupPartitions notFoundEnv "AwsDataCatalog" "mydb" "missing" 3 ≠
      .ok [] := by
  have he : backupPartitions notFoundEnv "AwsDataCatalog" "mydb" "missing" 3 =
      .error "TypeError: Cannot read properties of null (reading PartitionKeys)" := rfl
  refine ⟨he, ?_⟩
  rw [he]
  intro h
  cases h

/-! ## Claim C6 — change detection -/

/-- Claim C6: `tableUpdated` returns true when the remote table is absent,
and otherwise returns true iff the fingerprint of the declared DDL differs
from the fingerprint stored under `sls.athena.hash` in the remote table's
parameters. -/
theorem c6_table_updated (hash : String → String) (cfg : TableConfig)
    (t : RemoteTable) (ps : List (String × String))
    (h : t.Parameters = some ps) :
    tableUpdated hash cfg none = .ok true ∧
    (tableUpdated hash cfg (some t) = .ok true ↔
      some (hash cfg.ddl) ≠ lookupParam ps hashKey) := by
  refine ⟨rfl, ?_⟩
  simp [tableUpdated, h]

/-- Concrete remote table carrying a stored fingerprint. -/
def fingerprintedTable : RemoteTable :=
  { Name := "events"
    PartitionKeys := []
    Parameters := some [(hashKey, "stale"), (stackKey, "stk")]
    liveDdl := "CREATE EXTERNAL TABLE events (x string)"
    partitions := [] }

/-- Concrete declared table used in witnesses. -/
def witnessCfg : TableConfig :=
  { catalog := "AwsDataCatalog"
    database := "mydb"
    fullname := "mydb.events"
    name := "events"
    ddl := "NEWDDL"
    keepPartitions := true
    workgroup := "primary" }

/-- Witness for C6 at a concrete table whose stored fingerprint differs. -/
theorem c6_table_updated_witness :
    fingerprintedTable.Parameters = some [(hashKey, "stale"), (stackKey, "stk")] ∧
    (tableUpdated (fun s => s) witnessCfg none = .ok true ∧
      (tableUpdated (fun s => s) witnessCfg (some fingerprintedTable) = .ok true ↔
        some ((fun s => s) witnessCfg.ddl) =
          lookupParam [(hashKey, "stale"), (stackKey, "stk")] hashKey → False)) :=
  ⟨rfl, c6_table_updated (fun s => s) witnessCfg fingerprintedTable
    [(hashKey, "stale"), (stackKey, "stk")] rfl⟩

/-! ## Claim C9 — catalog pagination in the database sweep -/

/-- Concrete tagged orphan databases living in two different catalogs. -/
def sweepOrphan1 : GlueDatabase :=
  { Name := "orphan1", Parameters := some [(stackKey, "stk")] }

/-- Second orphan, in the catalog the service only reports on page two. -/
def sweepOrphan2 : GlueDatabase :=
  { Name := "orphan2", Parameters := some [(stackKey, "stk")] }

/-- A sweep environment whose catalog listing has two pages: page one holds
`cat1` and offers a continuation token, page two holds `cat2`. -/
def twoPageSweepEnv : SweepEnv :=
  { stackName := "stk"
    catalogsPage := fun t =>
      match t with
      | none =>
          { DataCatalogsSummary := [{ CatalogName := "cat1" }]
            NextToken := some "page2" }
      | some _ =>
          { DataCatalogsSummary := [{ CatalogName := "cat2" }]
            NextToken := none }
    databasesPage := fun c _ =>
      if c == "cat1" then { DatabaseList := [sweepOrphan1], NextToken := none }
      else { DatabaseList := [sweepOrphan2], NextToken := none } }

/-- Claim C9 (code bug): the catalog listing is not paginated to
exhaustion.  The first page offers a continuation token, yet
`listDataCatalogs` stops after page one (line 257 reads `res.nextToken`, a
property the response does not carry), so the sweep never reaches the
orphaned, stack-tagged database in the second catalog. -/
theorem c9_catalog_pagination_stops :
    (twoPageSweepEnv.catalogsPage none).NextToken = some "page2" ∧
    listDataCatalogs twoPageSweepEnv 5 = [{ CatalogName := "cat1" }] ∧
    removeTrailingDatabases twoPageSweepEnv [] 5 = ["orphan1"] ∧
    "orphan2" ∉ removeTrailingDatabases twoPageSweepEnv [] 5 := by
  refine ⟨rfl, rfl, rfl, ?_⟩
  decide

/-! ## Claim C8 — the poll-wait schedule -/

theorem sleepsOf_nil : sleepsOf [] = [] := rfl

theorem sleepsOf_poll (l : List PollEvent) :
    sleepsOf (PollEvent.poll :: l) = sleepsOf l := rfl

theorem sleepsOf_sleep (d : Nat) (l : List PollEvent) :
    sleepsOf (PollEvent.sleep d :: l) = d :: sleepsOf l := rfl

theorem waitGo_sleeps_get (status : Nat → QState) :
    ∀ (fuel w j i : Nat),
      i < (sleepsOf (waitGo status fuel w j).1).length →
      (sleepsOf (waitGo status fuel w j).1).get? i =
        some (min 1000 (w + 100 * (i + 1))) := by
  intro fuel
  induction fuel with
  | zero => intro w j i hi; simp [waitGo, sleepsOf] at hi
  | succ f ih =>
      intro w j i hi
      cases hs : status j with
      | succeeded =>
          rw [show (waitGo status (f + 1) w j).1 = [PollEvent.poll] by
            simp [waitGo, hs]] at hi
          simp [sleepsOf] at hi
      | failed =>
          rw [show (waitGo status (f + 1) w j).1 = [PollEvent.poll] by
            simp [waitGo, hs]] at hi
          simp [sleepsOf] at hi
      | cancelled =>
          rw [show (waitGo status (f + 1) w j).1 = [PollEvent.poll] by
            simp [waitGo, hs]] at hi
          simp [sleepsOf] at hi
      | other =>
          rw [show (waitGo status (f + 1) w j).1 = [PollEvent.poll] by
            simp [waitGo, hs]] at hi
          simp [sleepsOf] at hi
      | queued =>
          rw [show (waitGo status (f + 1) w j).1 =
              PollEvent.poll :: PollEvent.sleep (min 1000 (w + 100)) ::
                (waitGo status f (min 1000 (w + 100)) (j + 1)).1 by
            simp [waitGo, hs]] at hi ⊢
          rw [sleepsOf_poll, sleepsOf_sleep] at hi ⊢
          cases i with
          | zero => simp
          | succ i' =>
              have hi' := Nat.lt_of_succ_lt_succ (by simpa using hi)
              rw [List.get?_cons_succ, ih (min 1000 (w + 100)) (j + 1) i' hi']
              congr 1
              omega
      | running =>
          rw [show (waitGo status (f + 1) w j).1 =
              PollEvent.poll :: PollEvent.sleep (min 1000 (w + 100)) ::
                (waitGo status f (min 1000 (w + 100)) (j + 1)).1 by
            simp [waitGo, hs]] at hi ⊢
          rw [sleepsOf_poll, sleepsOf_sleep] at hi ⊢
          cases i with
          | zero => simp
          | succ i' =>
              have hi' := Nat.lt_of_succ_lt_succ (by simpa using hi)
              rw [List.get?_cons_succ, ih (min 1000 (w + 100)) (j + 1) i' hi']
              congr 1
              omega

/-- Status oracle reporting RUNNING on the first poll and SUCCEEDED on the
second. -/
def statusRS : Nat → QState := fun j => if j == 0 then .running else .succeeded

/-- Claim C8 counterexample: the first status poll happens immediately
after submission — the trace starts with a poll, not with a 100-unit
sleep.  The `waitTime` update precedes the poll in the source, but the
`setTimeout` sleep only runs after a non-terminal poll result. -/
theorem c8_first_poll_immediate :
    execTrace statusRS 5 = [.poll, .sleep 100, .poll] ∧
    (execTrace statusRS 5).head? = some PollEvent.poll ∧
    (execTrace statusRS 5).head? ≠ some (PollEvent.sleep 100) := by
  refine ⟨rfl, rfl, ?_⟩
  decide

/-- Claim C8 as amended: the poll-wait intervals form the sequence
`min(1000, 100·(k+1))` — starting at 100, incremented by 100 per retry,
capped at 1000, hence non-decreasing and bounded — but each interval is
applied after a non-terminal poll and before the next one, so the first
poll happens immediately after submission (the trace starts with a
poll). -/
theorem c8_backoff_schedule (status : Nat → QState) (fuel : Nat)
    (hf : 0 < fuel) :
    (∀ i, i < (sleepsOf (execTrace status fuel)).length →
      (sleepsOf (execTrace status fuel)).get? i =
        some (min 1000 (100 * (i + 1)))) ∧
    (∀ d ∈ sleepsOf (execTrace status fuel), 100 ≤ d ∧ d ≤ 1000) ∧
    List.Chain' (· ≤ ·) (sleepsOf (execTrace status fuel)) ∧
    (execTrace status fuel).head? = some PollEvent.poll := by
  have hget : ∀ i, i < (sleepsOf (execTrace status fuel)).length →
      (sleepsOf (execTrace status fuel)).get? i =
        some (min 1000 (100 * (i + 1))) := by
    intro i hi
    have := waitGo_sleeps_get status fuel 0 0 i hi
    simpa using this
  refine ⟨hget, ?_, ?_, ?_⟩
  · intro d hd
    obtain ⟨i, hi⟩ := List.get_of_mem hd
    have hlen : i.1 < (sleepsOf (execTrace status fuel)).length := i.2
    have := hget i.1 hlen
    rw [List.get?_eq_get hlen] at this
    rw [hi] at this
    obtain h := Option.some.inj this
    omega
  · rw [List.chain'_iff_get]
    intro i hi
    have h1 : i < (sleepsOf (execTrace status fuel)).length := by omega
    have h2 : i + 1 < (sleepsOf (execTrace status fuel)).length := by omega
    have e1 := hget i h1
    have e2 := hget (i + 1) h2
    rw [List.get?_eq_get h1] at e1
    rw [List.get?_eq_get h2] at e2
    obtain g1 := Option.some.inj e1
    obtain g2 := Option.some.inj e2
    rw [g1, g2]
    omega
  · cases fuel with
    | zero => omega
    | succ f =>
        rcases hs : status 0 with _ | _ | _ | _ | _ | _ <;>
          simp [execTrace, waitGo, hs]

/-! ## Claim C3 — statement byte-size bound -/

theorem forAppend_size (ps : List PartEntry) :
    ∀ (rem : Nat) (query : String) (i : Nat),
      query.utf8ByteSize ≤ querySizeLimit →
      (forAppend ps query i rem).2.utf8ByteSize ≤ querySizeLimit := by
  intro rem
  induction rem with
  | zero => intro q i h; simpa [forAppend] using h
  | succ r ih =>
      intro q i h
      simp only [forAppend]
      cases hg : ps.get? i with
      | none => simpa using h
      | some p =>
          by_cases hc : (q ++ partClause p).utf8ByteSize > querySizeLimit
          · simp only [hc, if_true]
            exact h
          · simp only [hc, if_false]
            exact ih (q ++ partClause p) (i + 1) (Nat.le_of_not_lt hc)

theorem restoreLoopGo_sizes (table : String) (ps : List PartEntry)
    (hhead : (addStmtHead table).utf8ByteSize ≤ querySizeLimit) :
    ∀ (fuel : Nat) (i : Int) q, q ∈ (restoreLoopGo table ps fuel i).1 →
      q.utf8ByteSize ≤ querySizeLimit := by
  intro fuel
  induction fuel with
  | zero => intro i q hq; simp [restoreLoopGo] at hq
  | succ f ih =>
      intro i q hq
      simp only [restoreLoopGo] at hq
      by_cases h1 : i < (ps.length : Int)
      · rw [if_pos h1] at hq
        by_cases h2 : i < 0
        · rw [if_pos h2] at hq; simp at hq
        · rw [if_neg h2] at hq
          simp only [List.mem_cons] at hq
          cases hq with
          | inl he => rw [he]; exact forAppend_size ps _ _ _ hhead
          | inr ht => exact ih _ q ht
      · rw [if_neg h1] at hq; simp at hq

/-- Claim C3: every `ALTER TABLE ... ADD IF NOT EXISTS` statement that the
batching loop of `restorePartitions` hands to the executor stays within
the 262144-byte UTF-8 wire limit, for every snapshot list (provided the
fixed statement head for the table name fits the limit, as any real table
name does). -/
theorem c3_statement_size (table : String) (ps : List PartEntry) (fuel : Nat)
    (hhead : (addStmtHead table).utf8ByteSize ≤ querySizeLimit) :
    ∀ q ∈ (restorePartitions table ps fuel).1,
      q.utf8ByteSize ≤ querySizeLimit := by
  intro q hq
  rw [restorePartitions] at hq
  by_cases h : ps.length = 0
  · rw [if_pos h] at hq; simp at hq
  · rw [if_neg h] at hq
    exact restoreLoopGo_sizes table ps hhead fuel 0 q hq

/-- Concrete snapshot entry used in witnesses. -/
def witnessPart : PartEntry :=
  { values := [("dt", "2020-01-01")]
    location := "s3://bucket/dt=2020-01-01/" }

/-- Witness for C3 at a concrete table and snapshot. -/
theorem c3_statement_size_witness :
    (addStmtHead "events").utf8ByteSize ≤ querySizeLimit ∧
    ∀ q ∈ (restorePartitions "events" [witnessPart] 3).1,
      q.utf8ByteSize ≤ querySizeLimit :=
  ⟨by decide, c3_statement_size "events" [witnessPart] 3 (by decide)⟩

/-! ## Claim C4 — the batching loop does not always terminate

With two partition clauses that each fit in a statement together with the
head but not both at once, the source's `i--; break` (line 442) moves the
loop back to the clause it has just emitted: every while-iteration executes
the same statement and re-enters with `i = 0`. -/

/-- A storage location of 131100 `a` characters. -/
def bigLoc : String := String.mk (List.replicate 131100 'a')

/-- First oversized partition snapshot. -/
def hugeP0 : PartEntry := { values := [("k", "0")], location := bigLoc }

/-- Second oversized partition snapshot. -/
def hugeP1 : PartEntry := { values := [("k", "1")], location := bigLoc }

/-- The two-partition snapshot list on which the loop diverges. -/
def hugeParts : List PartEntry := [hugeP0, hugeP1]

theorem bigLoc_size : bigLoc.utf8ByteSize = 131100 := by
  rw [bigLoc, utf8Len_mk_replicate]
  norm_num [show ('a').utf8Size = 1 from rfl]

theorem hugeP0_clause :
    partClause hugeP0 = "PARTITION (`k` = '0') LOCATION '" ++ bigLoc ++ "'" := rfl

theorem hugeP1_clause :
    partClause hugeP1 = "PARTITION (`k` = '1') LOCATION '" ++ bigLoc ++ "'" := rfl

theorem headT_size : (addStmtHead "t").utf8ByteSize = 32 := rfl

theorem hugeP0_size : (partClause hugeP0).utf8ByteSize = 131133 := by
  rw [hugeP0_clause, utf8Len_append, utf8Len_append, bigLoc_size]
  norm_num [show ("PARTITION (`k` = '0') LOCATION '" : String).utf8ByteSize = 32 from rfl,
    show ("'" : String).utf8ByteSize = 1 from rfl]

theorem hugeP1_size : (partClause hugeP1).utf8ByteSize = 131133 := by
  rw [hugeP1_clause, utf8Len_append, utf8Len_append, bigLoc_size]
  norm_num [show ("PARTITION (`k` = '1') LOCATION '" : String).utf8ByteSize = 32 from rfl,
    show ("'" : String).utf8ByteSize = 1 from rfl]

theorem hugeParts_forAppend :
    forAppend hugeParts (addStmtHead "t") 0 2 =
      ((0 : Int), addStmtHead "t" ++ partClause hugeP0) := by
  have h0 : ((addStmtHead "t") ++ partClause hugeP0).utf8ByteSize = 131165 := by
    rw [utf8Len_append, hugeP0_size, headT_size]
  have h1 : ((addStmtHead "t" ++ partClause hugeP0) ++ partClause hugeP1).utf8ByteSize
      = 262298 := by
    rw [utf8Len_append, h0, hugeP1_size]
  simp [forAppend, hugeParts, querySizeLimit, h0, h1]

theorem hugeParts_step (fuel : Nat) :
    restoreLoopGo "t" hugeParts (fuel + 1) 0 =
      ((addStmtHead "t" ++ partClause hugeP0) ::
          (restoreLoopGo "t" hugeParts fuel 0).1,
        (restoreLoopGo "t" hugeParts fuel 0).2) := by
  simp only [restoreLoopGo]
  rw [if_pos (by norm_num [hugeParts] : ((0 : Int) < (hugeParts.length : Int))),
    if_neg (by norm_num : ¬ ((0 : Int) < 0))]
  norm_num [hugeParts_forAppend, show hugeParts.length = 2 from rfl]

/-- Claim C4 (code bug): on the concrete two-partition snapshot the
batching while-loop never terminates — for every amount of fuel the run is
still unfinished, because the overflow branch's `i--` re-enters the loop
at the clause it just flushed instead of the clause that did not fit. -/
theorem c4_batching_diverges (fuel : Nat) :
    (restorePartitions "t" hugeParts fuel).2 = RunOutcome.outOfFuel := by
  have h : ∀ f, (restoreLoopGo "t" hugeParts f 0).2 = RunOutcome.outOfFuel := by
    intro f
    induction f with
    | zero => rfl
    | succ n ih =>
        rw [hugeParts_step]
        exact ih
  rw [restorePartitions, if_neg (by norm_num [hugeParts])]
  exact h fuel

/-! ## Parameter-merge lemmas for the stamping step -/

theorem lookupParam_append (l₁ l₂ : List (String × String)) (k : String) :
    lookupParam (l₁ ++ l₂) k =
      match lookupParam l₁ k with
      | some v => some v
      | none => lookupParam l₂ k := by
  induction l₁ with
  | nil => simp [lookupParam]
  | cons kv rest ih =>
      by_cases hk : (kv.1 == k) = true
      · simp [lookupParam, List.find?, hk]
      · simp only [lookupParam, List.cons_append, List.find?, hk] at ih ⊢
        exact ih

theorem lookupParam_filter_stamp (ps old : List (String × String)) (k v : String)
    (h : lookupParam ps k = some v) :
    lookupParam (old.filter (fun kv => (lookupParam ps kv.1).isNone)) k = none := by
  induction old with
  | nil => rfl
  | cons kv rest ih =>
      rw [List.filter_cons]
      by_cases hkeep : (lookupParam ps kv.1).isNone = true
      · rw [if_pos hkeep]
        have hne : (kv.1 == k) = false := by
          rcases hbeq : (kv.1 == k) with _ | _
          · rfl
          · exfalso
            have hkk : kv.1 = k := by simpa using hbeq
            rw [hkk, h] at hkeep
            simp at hkeep
        simpa [lookupParam, List.find?, hne] using ih
      · rw [if_neg hkeep]
        exact ih

theorem lookupParam_setProps (old ps : List (String × String)) (k v : String)
    (h : lookupParam ps k = some v) :
    lookupParam (setProps old ps) k = some v := by
  rw [setProps, lookupParam_append, lookupParam_filter_stamp ps old k v h]
  simpa using h

theorem stampParams_hash (env : DeployEnv) (cfg : TableConfig) :
    lookupParam (stampParams env cfg) hashKey = some (env.hash cfg.ddl) := rfl

theorem stampParams_stack (env : DeployEnv) (cfg : TableConfig) :
    lookupParam (stampParams env cfg) stackKey = some env.stackName := rfl

/-! ## Phase lemmas for `deployTable` -/

theorem restorePhase_some (cfg : TableConfig) (ops : List Op)
    (nt : RemoteTable) (parts : Option (List PartEntry)) :
    ∃ t', (restorePhase cfg ops (some nt) parts).state = some t' ∧
      t'.Parameters = nt.Parameters ∧ t'.liveDdl = nt.liveDdl ∧
      (restorePhase cfg ops (some nt) parts).err = none ∧
      ∀ op ∈ ops, op ∈ (restorePhase cfg ops (some nt) parts).ops := by
  cases parts with
  | none =>
      exact ⟨nt, rfl, rfl, rfl, rfl, fun op hop => by simp [restorePhase, hop]⟩
  | some ps =>
      rw [restorePhase]
      by_cases hc : (decide (nt.PartitionKeys.length > 0) && decide (ps.length > 0)) = true
      · rw [if_pos hc]
        exact ⟨restoredTable nt ps, rfl, rfl, rfl, rfl, fun op hop => by simp [hop]⟩
      · rw [if_neg hc]
        exact ⟨nt, rfl, rfl, rfl, rfl, fun op hop => by simp [hop]⟩

theorem restorePhase_ops_cases (cfg : TableConfig) (ops : List Op)
    (st : Option RemoteTable) (parts : Option (List PartEntry)) :
    ∀ op ∈ (restorePhase cfg ops st parts).ops,
      op ∈ ops ∨ op = Op.refetchTable cfg.name ∨
        ∃ c, op = Op.restoreParts cfg.name c := by
  intro op hop
  cases st with
  | none =>
      rw [restorePhase] at hop
      simp only [List.mem_append, List.mem_singleton] at hop
      rcases hop with h | h
      · exact Or.inl h
      · exact Or.inr (Or.inl h)
  | some nt =>
      cases parts with
      | none =>
          rw [restorePhase] at hop
          simp only [List.mem_append, List.mem_singleton] at hop
          rcases hop with h | h
          · exact Or.inl h
          · exact Or.inr (Or.inl h)
      | some ps =>
          rw [restorePhase] at hop
          by_cases hc : (decide (nt.PartitionKeys.length > 0) && decide (ps.length > 0)) = true
          · rw [if_pos hc] at hop
            simp only [List.mem_append, List.mem_cons, List.mem_singleton] at hop
            rcases hop with h | h | h
            · exact Or.inl h
            · exact Or.inr (Or.inl h)
            · exact Or.inr (Or.inr ⟨ps.length, by simpa using h⟩)
          · rw [if_neg hc] at hop
            simp only [List.mem_append, List.mem_singleton] at hop
            rcases hop with h | h
            · exact Or.inl h
            · exact Or.inr (Or.inl h)

theorem stampPhase_ok (env : DeployEnv) (cfg : TableConfig) (ops : List Op)
    (st : Option RemoteTable) (parts : Option (List PartEntry))
    (h : (stampPhase env cfg ops st parts).err = none) :
    ∃ t ps, (stampPhase env cfg ops st parts).state = some t ∧
      t.Parameters = some ps ∧
      lookupParam ps hashKey = some (env.hash cfg.ddl) ∧
      lookupParam ps stackKey = some env.stackName ∧
      Op.setParams cfg.name (stampParams env cfg) ∈
        (stampPhase env cfg ops st parts).ops := by
  cases st with
  | none => simp [stampPhase] at h
  | some t =>
      have hs : stampPhase env cfg ops (some t) parts =
          restorePhase cfg (ops ++ [.setParams cfg.name (stampParams env cfg)])
            (some (stampedTableOf env cfg t)) parts := rfl
      rw [hs]
      obtain ⟨t', hstate, hparams, -, -, hmono⟩ :=
        restorePhase_some cfg (ops ++ [.setParams cfg.name (stampParams env cfg)])
          (stampedTableOf env cfg t) parts
      refine ⟨t', setProps (t.Parameters.getD []) (stampParams env cfg),
        hstate, by simpa [stampedTableOf] using hparams, ?_, ?_, ?_⟩
      · exact lookupParam_setProps _ _ _ _ (stampParams_hash env cfg)
      · exact lookupParam_setProps _ _ _ _ (stampParams_stack env cfg)
      · exact hmono _ (by simp)

theorem stampPhase_ops_cases (env : DeployEnv) (cfg : TableConfig)
    (ops : List Op) (st : Option RemoteTable)
    (parts : Option (List PartEntry)) :
    ∀ op ∈ (stampPhase env cfg ops st parts).ops,
      op ∈ ops ∨ op = Op.setParams cfg.name (stampParams env cfg) ∨
        op = Op.refetchTable cfg.name ∨
        ∃ c, op = Op.restoreParts cfg.name c := by
  intro op hop
  cases st with
  | none =>
      simp only [stampPhase, List.mem_append, List.mem_singleton] at hop
      rcases hop with h | h
      · exact Or.inl h
      · exact Or.inr (Or.inl h)
  | some t =>
      have hs : stampPhase env cfg ops (some t) parts =
          restorePhase cfg (ops ++ [.setParams cfg.name (stampParams env cfg)])
            (some (stampedTableOf env cfg t)) parts := rfl
      rw [hs] at hop
      rcases restorePhase_ops_cases cfg _ _ parts op hop with h | h | h
      · simp only [List.mem_append, List.mem_singleton] at h
        rcases h with h | h
        · exact Or.inl h
        · exact Or.inr (Or.inl h)
      · exact Or.inr (Or.inr (Or.inl h))
      · exact Or.inr (Or.inr (Or.inr h))

theorem stampPhase_setParams_mem (env : DeployEnv) (cfg : TableConfig)
    (ops : List Op) (st : Option RemoteTable)
    (parts : Option (List PartEntry)) :
    Op.setParams cfg.name (stampParams env cfg) ∈
      (stampPhase env cfg ops st parts).ops := by
  cases st with
  | none => simp [stampPhase]
  | some t =>
      have hs : stampPhase env cfg ops (some t) parts =
          restorePhase cfg (ops ++ [.setParams cfg.name (stampParams env cfg)])
            (some (stampedTableOf env cfg t)) parts := rfl
      rw [hs]
      obtain ⟨-, -, -, -, -, hmono⟩ := restorePhase_some cfg _ _ parts
      exact hmono _ (by simp)

theorem stampPhase_err_none (env : DeployEnv) (cfg : TableConfig)
    (ops : List Op) (t0 : RemoteTable) (parts : Option (List PartEntry)) :
    (stampPhase env cfg ops (some t0) parts).err = none := by
  have hs : stampPhase env cfg ops (some t0) parts =
      restorePhase cfg (ops ++ [.setParams cfg.name (stampParams env cfg)])
        (some (stampedTableOf env cfg t0)) parts := rfl
  rw [hs]
  obtain ⟨-, -, -, -, herr, -⟩ := restorePhase_some cfg _ _ parts
  exact herr

theorem stampPhase_liveDdl (env : DeployEnv) (cfg : TableConfig)
    (ops : List Op) (t0 : RemoteTable) (parts : Option (List PartEntry)) :
    ∃ t', (stampPhase env cfg ops (some t0) parts).state = some t' ∧
      t'.liveDdl = t0.liveDdl := by
  have hs : stampPhase env cfg ops (some t0) parts =
      restorePhase cfg (ops ++ [.setParams cfg.name (stampParams env cfg)])
        (some (stampedTableOf env cfg t0)) parts := rfl
  rw [hs]
  obtain ⟨t', h1, -, h3, -, -⟩ := restorePhase_some cfg _ _ parts
  exact ⟨t', h1, by simpa [stampedTableOf] using h3⟩

theorem createPhase_ok (env : DeployEnv) (cfg : TableConfig)
    (table : Option RemoteTable) (needRemove : Bool)
    (backupedDDL : Option String) (ops : List Op) (st : Option RemoteTable)
    (parts : Option (List PartEntry))
    (h : (createPhase env cfg table needRemove backupedDDL ops st parts).err = none) :
    ∃ t ps, (createPhase env cfg table needRemove backupedDDL ops st parts).state = some t ∧
      t.Parameters = some ps ∧
      lookupParam ps hashKey = some (env.hash cfg.ddl) ∧
      lookupParam ps stackKey = some env.stackName ∧
      Op.setParams cfg.name (stampParams env cfg) ∈
        (createPhase env cfg table needRemove backupedDDL ops st parts).ops := by
  rw [createPhase] at h ⊢
  by_cases h1 : (table.isNone || needRemove) = true
  · rw [if_pos h1] at h ⊢
    by_cases h2 : env.createOk cfg.ddl = true
    · rw [if_pos h2] at h ⊢
      exact stampPhase_ok env cfg _ _ parts h
    · rw [if_neg h2] at h ⊢
      by_cases h3 : jsTruthy backupedDDL = true
      · rw [if_pos h3] at h ⊢
        by_cases h4 : env.createOk (backupedDDL.getD "") = true
        · rw [if_pos h4] at h ⊢
          exact stampPhase_ok env cfg _ _ parts h
        · rw [if_neg h4] at h
          simp at h
      · rw [if_neg h3] at h ⊢
        exact stampPhase_ok env cfg _ _ parts h
  · rw [if_neg h1] at h ⊢
    exact stampPhase_ok env cfg _ _ parts h

theorem removePhase_ok (env : DeployEnv) (cfg : TableConfig)
    (table : Option RemoteTable) (ops : List Op) (st : Option RemoteTable)
    (parts : Option (List PartEntry))
    (h : (removePhase env cfg table ops st parts).err = none) :
    ∃ t ps, (removePhase env cfg table ops st parts).state = some t ∧
      t.Parameters = some ps ∧
      lookupParam ps hashKey = some (env.hash cfg.ddl) ∧
      lookupParam ps stackKey = some env.stackName ∧
      Op.setParams cfg.name (stampParams env cfg) ∈
        (removePhase env cfg table ops st parts).ops := by
  cases hu : tableUpdated env.hash cfg table with
  | error e =>
      simp only [removePhase, hu] at h
      cases h
  | ok needRemove =>
      simp only [removePhase, hu] at h ⊢
      cases needRemove with
      | true =>
          rw [if_pos rfl] at h ⊢
          cases st with
          | some t => exact createPhase_ok env cfg table true (some t.liveDdl) _ none parts h
          | none => simp at h
      | false =>
          rw [if_neg (by simp)] at h ⊢
          exact createPhase_ok env cfg table false none ops st parts h

theorem deployTable_ok (env : DeployEnv) (cfg : TableConfig)
    (table : Option RemoteTable) (st : Option RemoteTable)
    (h : (deployTable env cfg table st).err = none) :
    ∃ t ps, (deployTable env cfg table st).state = some t ∧
      t.Parameters = some ps ∧
      lookupParam ps hashKey = some (env.hash cfg.ddl) ∧
      lookupParam ps stackKey = some env.stackName ∧
      Op.setParams cfg.name (stampParams env cfg) ∈
        (deployTable env cfg table st).ops := by
  cases table with
  | none =>
      simp only [deployTable] at h ⊢
      rw [if_neg (by simp)] at h ⊢
      exact removePhase_ok env cfg none [] st none h
  | some tb =>
      by_cases hb : (decide (tb.PartitionKeys.length > 0) && cfg.keepPartitions) = true
      · simp only [deployTable] at h ⊢
        rw [if_pos hb] at h ⊢
        cases st with
        | none => simp at h
        | some t0 => exact removePhase_ok env cfg (some tb) _ (some t0) _ h
      · simp only [deployTable] at h ⊢
        rw [if_neg hb] at h ⊢
        exact removePhase_ok env cfg (some tb) [] st none h

/-- The second reconciliation run: `deployTable` re-invoked on the state
the first run left behind (the fresh `listTables` entry then equals the
live state). -/
def secondRun (env : DeployEnv) (cfg : TableConfig)
    (st₀ : Option RemoteTable) : DeployResult :=
  deployTable env cfg (deployTable env cfg st₀ st₀).state
    (deployTable env cfg st₀ st₀).state

theorem deployTable_unchanged (env : DeployEnv) (cfg : TableConfig)
    (t1 : RemoteTable) (ps1 : List (String × String))
    (hps : t1.Parameters = some ps1)
    (hh : lookupParam ps1 hashKey = some (env.hash cfg.ddl)) :
    (∀ n, Op.dropTable n ∉ (deployTable env cfg (some t1) (some t1)).ops) ∧
    (∀ n d, Op.createTable n d ∉ (deployTable env cfg (some t1) (some t1)).ops) ∧
    Op.setParams cfg.name (stampParams env cfg) ∈
      (deployTable env cfg (some t1) (some t1)).ops := by
  have hupd : tableUpdated env.hash cfg (some t1) = .ok false := by
    simp only [tableUpdated, hps]
    simp [hh]
  by_cases hb : ((decide (t1.PartitionKeys.length > 0)) && cfg.keepPartitions) = true
  · have hd : deployTable env cfg (some t1) (some t1) =
        stampPhase env cfg [Op.backupParts cfg.name, Op.writeFile cfg.name]
          (some t1) (some t1.partitions) := by
      simp [deployTable, removePhase, createPhase, hupd, hb]
    rw [hd]
    refine ⟨?_, ?_, stampPhase_setParams_mem env cfg _ _ _⟩
    · intro n hmem
      rcases stampPhase_ops_cases env cfg _ _ _ _ hmem with h | h | h | ⟨c, h⟩ <;>
        simp at h
    · intro n d hmem
      rcases stampPhase_ops_cases env cfg _ _ _ _ hmem with h | h | h | ⟨c, h⟩ <;>
        simp at h
  · have hd : deployTable env cfg (some t1) (some t1) =
        stampPhase env cfg [] (some t1) none := by
      simp [deployTable, removePhase, createPhase, hupd, hb]
    rw [hd]
    refine ⟨?_, ?_, stampPhase_setParams_mem env cfg _ _ _⟩
    · intro n hmem
      rcases stampPhase_ops_cases env cfg _ _ _ _ hmem with h | h | h | ⟨c, h⟩ <;>
        simp at h
    · intro n d hmem
      rcases stampPhase_ops_cases env cfg _ _ _ _ hmem with h | h | h | ⟨c, h⟩ <;>
        simp at h

theorem deployTable_rollback_reduce (env : DeployEnv) (cfg : TableConfig)
    (t : RemoteTable)
    (hupd : tableUpdated env.hash cfg (some t) = .ok true)
    (hfail : env.createOk cfg.ddl = false)
    (hbk : t.liveDdl ≠ "")
    (hrb : env.createOk t.liveDdl = true) :
    ∃ ops0 parts0, deployTable env cfg (some t) (some t) =
      stampPhase env cfg (ops0 ++ [Op.showCreate cfg.name, Op.dropTable cfg.name,
        Op.createTable cfg.name cfg.ddl, Op.createTable cfg.name t.liveDdl])
        (some (newTableFromDdl env cfg.name t.liveDdl)) parts0 := by
  have hjs : jsTruthy (some t.liveDdl) = true := by simp [jsTruthy, hbk]
  by_cases hb : (decide (t.PartitionKeys.length > 0) && cfg.keepPartitions) = true
  · refine ⟨[Op.backupParts cfg.name, Op.writeFile cfg.name], some t.partitions, ?_⟩
    simp [deployTable, removePhase, createPhase, hupd, hb, hfail, hjs, hrb]
  · refine ⟨[], none, ?_⟩
    simp [deployTable, removePhase, createPhase, hupd, hb, hfail, hjs, hrb]

/-! ## Claims C1, C7, C10 — rollback, idempotence, swallowed create errors -/

/-- Claim C1 as amended: if the drop succeeded, the create of the declared
DDL failed, and a (truthy) pre-drop live-DDL backup was captured, then —
provided the rollback create of that backup succeeds — `deployTable` ends
with the table in existence with its pre-drop definition, not absent and
not the failed new definition.  (When the rollback create itself fails,
the table is left absent; see the counterexample.) -/
theorem c1_rollback_restores (env : DeployEnv) (cfg : TableConfig)
    (t : RemoteTable)
    (hupd : tableUpdated env.hash cfg (some t) = .ok true)
    (hfail : env.createOk cfg.ddl = false)
    (hbk : t.liveDdl ≠ "")
    (hrb : env.createOk t.liveDdl = true) :
    ∃ t', (deployTable env cfg (some t) (some t)).state = some t' ∧
      t'.liveDdl = t.liveDdl ∧
      (cfg.ddl ≠ t.liveDdl → t'.liveDdl ≠ cfg.ddl) := by
  obtain ⟨ops0, parts0, hd⟩ := deployTable_rollback_reduce env cfg t hupd hfail hbk hrb
  rw [hd]
  obtain ⟨t', hstate, hlive⟩ := stampPhase_liveDdl env cfg _ _ parts0
  have hnew : (newTableFromDdl env cfg.name t.liveDdl).liveDdl = t.liveDdl := rfl
  refine ⟨t', hstate, hlive.trans hnew, ?_⟩
  intro hne heq
  rw [hlive.trans hnew] at heq
  exact hne heq.symm

/-- Environment in which every CREATE TABLE query fails. -/
def allCreateFailEnv : DeployEnv :=
  { hash := fun s => s
    stackName := "stk"
    createOk := fun _ => false
    ddlPartitionKeys := fun _ => [] }

/-- An unpartitioned remote table with a stale stored fingerprint and live
definition `OLDDDL`. -/
def staleTable : RemoteTable :=
  { Name := "events"
    PartitionKeys := []
    Parameters := some [(hashKey, "stale"), (stackKey, "stk")]
    liveDdl := "OLDDDL"
    partitions := [] }

/-- Claim C1 counterexample: the drop succeeded, the create of the declared
DDL failed, and a pre-drop live-DDL backup was captured (the trace shows
`SHOW CREATE TABLE`, the drop, and both create attempts), yet the run ends
with the table absent and an error — the rollback create itself failed, a
case the claim's unconditional wording does not allow. -/
theorem c1_counterexample :
    (deployTable allCreateFailEnv witnessCfg (some staleTable) (some staleTable)).ops =
      [Op.showCreate "events", Op.dropTable "events",
        Op.createTable "events" "NEWDDL", Op.createTable "events" "OLDDDL"] ∧
    (deployTable allCreateFailEnv witnessCfg (some staleTable) (some staleTable)).state
      = none ∧
    (deployTable allCreateFailEnv witnessCfg (some staleTable) (some staleTable)).err =
      some "Query failed: restore create failed" :=
  ⟨rfl, rfl, rfl⟩

/-- Environment in which only the previous live definition `OLDDDL` can be
re-created. -/
def rollbackEnv : DeployEnv :=
  { hash := fun s => s
    stackName := "stk"
    createOk := fun s => s == "OLDDDL"
    ddlPartitionKeys := fun _ => [] }

/-- Witness for the amended C1 at a concrete failing create with a
succeeding rollback. -/
theorem c1_rollback_restores_witness :
    tableUpdated rollbackEnv.hash witnessCfg (some staleTable) = .ok true ∧
    rollbackEnv.createOk witnessCfg.ddl = false ∧
    staleTable.liveDdl ≠ "" ∧
    rollbackEnv.createOk staleTable.liveDdl = true ∧
    ∃ t', (deployTable rollbackEnv witnessCfg (some staleTable)
        (some staleTable)).state = some t' ∧
      t'.liveDdl = staleTable.liveDdl ∧
      (witnessCfg.ddl ≠ staleTable.liveDdl → t'.liveDdl ≠ witnessCfg.ddl) :=
  ⟨rfl, rfl, by decide, rfl,
    c1_rollback_restores rollbackEnv witnessCfg staleTable rfl rfl (by decide) rfl⟩

/-- Claim C7: when a reconciliation run of a declared table completes, a
second run on the unchanged declaration performs no drop-table and no
create-table operation (the stored fingerprint matches the declared DDL's
fingerprint), while the provenance stamping — `setTableParameters` with
the fingerprint and the stack identity — is performed on both runs. -/
theorem c7_reconcile_idempotent (env : DeployEnv) (cfg : TableConfig)
    (st₀ : Option RemoteTable)
    (h : (deployTable env cfg st₀ st₀).err = none) :
    (∀ n, Op.dropTable n ∉ (secondRun env cfg st₀).ops) ∧
    (∀ n d, Op.createTable n d ∉ (secondRun env cfg st₀).ops) ∧
    Op.setParams cfg.name (stampParams env cfg) ∈
      (deployTable env cfg st₀ st₀).ops ∧
    Op.setParams cfg.name (stampParams env cfg) ∈ (secondRun env cfg st₀).ops := by
  obtain ⟨t1, ps1, hstate, hparams, hhash, -, hmem1⟩ := deployTable_ok env cfg st₀ st₀ h
  have hu := deployTable_unchanged env cfg t1 ps1 hparams hhash
  rw [secondRun, hstate]
  exact ⟨hu.1, hu.2.1, hmem1, hu.2.2⟩

/-- A remote table already stamped with the declared DDL's fingerprint. -/
def stampedOkTable : RemoteTable :=
  { Name := "events"
    PartitionKeys := []
    Parameters := some [(hashKey, "NEWDDL"), (stackKey, "stk")]
    liveDdl := "NEWDDL"
    partitions := [] }

/-- Environment in which every CREATE TABLE query succeeds. -/
def allCreateOkEnv : DeployEnv :=
  { hash := fun s => s
    stackName := "stk"
    createOk := fun _ => true
    ddlPartitionKeys := fun _ => [] }

/-- Witness for C7 at a concrete completed first run. -/
theorem c7_reconcile_idempotent_witness :
    (deployTable allCreateOkEnv witnessCfg (some stampedOkTable)
      (some stampedOkTable)).err = none ∧
    ((∀ n, Op.dropTable n ∉
        (secondRun allCreateOkEnv witnessCfg (some stampedOkTable)).ops) ∧
      (∀ n d, Op.createTable n d ∉
        (secondRun allCreateOkEnv witnessCfg (some stampedOkTable)).ops) ∧
      Op.setParams witnessCfg.name (stampParams allCreateOkEnv witnessCfg) ∈
        (deployTable allCreateOkEnv witnessCfg (some stampedOkTable)
          (some stampedOkTable)).ops ∧
      Op.setParams witnessCfg.name (stampParams allCreateOkEnv witnessCfg) ∈
        (secondRun allCreateOkEnv witnessCfg (some stampedOkTable)).ops) :=
  ⟨rfl, c7_reconcile_idempotent allCreateOkEnv witnessCfg (some stampedOkTable) rfl⟩

/-- Claim C10 as amended: when creating the table from the declared DDL
throws, the original exception is caught and never itself rethrown; if a
truthy pre-drop backup exists a rollback create is attempted, and only
that rollback's own failure can escape the step.  When the rollback create
succeeds, execution continues to stamp the table's parameters with the
fingerprint of the declared (failed) DDL and the stack identity, so a
subsequent run with the same declared DDL detects no change and performs
no drop or create. -/
theorem c10_swallowed_create_failure (env : DeployEnv) (cfg : TableConfig)
    (t : RemoteTable)
    (hupd : tableUpdated env.hash cfg (some t) = .ok true)
    (hfail : env.createOk cfg.ddl = false)
    (hbk : t.liveDdl ≠ "")
    (hrb : env.createOk t.liveDdl = true) :
    (deployTable env cfg (some t) (some t)).err = none ∧
    Op.setParams cfg.name (stampParams env cfg) ∈
      (deployTable env cfg (some t) (some t)).ops ∧
    (∃ t' ps', (deployTable env cfg (some t) (some t)).state = some t' ∧
      t'.Parameters = some ps' ∧
      lookupParam ps' hashKey = some (env.hash cfg.ddl)) ∧
    (∀ n, Op.dropTable n ∉ (secondRun env cfg (some t)).ops) ∧
    (∀ n d, Op.createTable n d ∉ (secondRun env cfg (some t)).ops) := by
  obtain ⟨ops0, parts0, hd⟩ := deployTable_rollback_reduce env cfg t hupd hfail hbk hrb
  have herr : (deployTable env cfg (some t) (some t)).err = none := by
    rw [hd]
    exact stampPhase_err_none env cfg _ _ parts0
  obtain ⟨t1, ps1, hstate, hparams, hhash, -, hmem⟩ :=
    deployTable_ok env cfg (some t) (some t) herr
  have hu := deployTable_unchanged env cfg t1 ps1 hparams hhash
  refine ⟨herr, hmem, ⟨t1, ps1, hstate, hparams, hhash⟩, ?_, ?_⟩
  · rw [secondRun, hstate]
    exact hu.1
  · rw [secondRun, hstate]
    exact hu.2.1

/-- Declared table `logs`, used for the C10 scenario. -/
def logsCfg : TableConfig :=
  { catalog := "AwsDataCatalog"
    database := "mydb"
    fullname := "mydb.logs"
    name := "logs"
    ddl := "NEWLOGS"
    keepPartitions := true
    workgroup := "primary" }

/-- Remote `logs` table with a stale fingerprint and live definition
`OLDLOGS`. -/
def staleLogsTable : RemoteTable :=
  { Name := "logs"
    PartitionKeys := []
    Parameters := some [(hashKey, "stale")]
    liveDdl := "OLDLOGS"
    partitions := [] }

/-- Claim C10 counterexample: the create of the declared DDL throws and a
backup exists, but the rollback create also throws — that exception
escapes the step, the parameter stamping never executes (the trace
contains no `setParams` operation), and the table is left absent, so a
subsequent run would see it as changed rather than unchanged. -/
theorem c10_counterexample :
    (deployTable allCreateFailEnv logsCfg (some staleLogsTable)
        (some staleLogsTable)).err = some "Query failed: restore create failed" ∧
    (deployTable allCreateFailEnv logsCfg (some staleLogsTable)
        (some staleLogsTable)).ops =
      [Op.showCreate "logs", Op.dropTable "logs",
        Op.createTable "logs" "NEWLOGS", Op.createTable "logs" "OLDLOGS"] ∧
    (deployTable allCreateFailEnv logsCfg (some staleLogsTable)
        (some staleLogsTable)).state = none :=
  ⟨rfl, rfl, rfl⟩

/-- Environment in which only `OLDLOGS` can be re-created. -/
def rollbackLogsEnv : DeployEnv :=
  { hash := fun s => s
    stackName := "stk"
    createOk := fun s => s == "OLDLOGS"
    ddlPartitionKeys := fun _ => [] }

/-- Witness for the amended C10 at a concrete failing create with a
succeeding rollback. -/
theorem c10_swallowed_create_failure_witness :
    tableUpdated rollbackLogsEnv.hash logsCfg (some staleLogsTable) = .ok true ∧
    rollbackLogsEnv.createOk logsCfg.ddl = false ∧
    staleLogsTable.liveDdl ≠ "" ∧
    rollbackLogsEnv.createOk staleLogsTable.liveDdl = true ∧
    ((deployTable rollbackLogsEnv logsCfg (some staleLogsTable)
        (some staleLogsTable)).err = none ∧
      Op.setParams logsCfg.name (stampParams rollbackLogsEnv logsCfg) ∈
        (deployTable rollbackLogsEnv logsCfg (some staleLogsTable)
          (some staleLogsTable)).ops ∧
      (∃ t' ps', (deployTable rollbackLogsEnv logsCfg (some staleLogsTable)
          (some staleLogsTable)).state = some t' ∧
        t'.Parameters = some ps' ∧
        lookupParam ps' hashKey = some (rollbackLogsEnv.hash logsCfg.ddl)) ∧
      (∀ n, Op.dropTable n ∉
        (secondRun rollbackLogsEnv logsCfg (some staleLogsTable)).ops) ∧
      (∀ n d, Op.createTable n d ∉
        (secondRun rollbackLogsEnv logsCfg (some staleLogsTable)).ops)) :=
  ⟨rfl, rfl, by decide, rfl,
    c10_swallowed_create_failure rollbackLogsEnv logsCfg staleLogsTable rfl rfl
      (by decide) rfl⟩

/-- Witness for the amended C8 at the concrete status oracle. -/
theorem c8_backoff_schedule_witness :
    0 < 5 ∧
    ((∀ i, i < (sleepsOf (execTrace statusRS 5)).length →
      (sleepsOf (execTrace statusRS 5)).get? i =
        some (min 1000 (100 * (i + 1)))) ∧
    (∀ d ∈ sleepsOf (execTrace statusRS 5), 100 ≤ d ∧ d ≤ 1000) ∧
    List.Chain' (· ≤ ·) (sleepsOf (execTrace statusRS 5)) ∧
    (execTrace statusRS 5).head? = some PollEvent.poll) :=
  ⟨by decide, c8_backoff_schedule statusRS 5 (by decide)⟩

end SlsAthena
